import Mathlib

/-!
# Verification of the veo3-video-generator streaming ingestion pipeline

Shallow embedding of the streaming Stream Decoder and Artifact Resolver of
`src/app.py` (function `main`, lines 200-292, plus the helpers
`normalize_stream_text` and `extract_first_url`).

Python strings are modelled as lists of Unicode scalar values (`PyStr`),
Python values decoded from JSON as `PyVal`, and exceptions as explicit
`Except`/outcome values.  `json.loads` is kept as a parameter
`loads : PyStr → Option PyVal` of the decoder (`none` models a
`json.JSONDecodeError`); concrete tables mirroring `json.loads` on the
specific inputs of the examples are given below.
-/

/-- A Python `str`: a list of Unicode scalar values. -/
abbrev PyStr := List Char

/-- Convert a Lean string literal into the `PyStr` model. -/
def pyof (s : String) : PyStr := s.toList

/-- The set of characters Python treats as whitespace in `str.strip()` and
as `\s` in a unicode regex: ASCII whitespace, the C1 separators, and the
Unicode space characters. -/
def pyIsSpace (c : Char) : Bool :=
  let n := c.toNat
  (0x9 ≤ n && n ≤ 0xD) || n == 0x20 || (0x1C ≤ n && n ≤ 0x1F) || n == 0x85 ||
  n == 0xA0 || n == 0x1680 || (0x2000 ≤ n && n ≤ 0x200A) || n == 0x2028 ||
  n == 0x2029 || n == 0x202F || n == 0x205F || n == 0x3000

/-- Python `str.strip()`: remove leading and trailing whitespace. -/
def pyStrip (s : PyStr) : PyStr :=
  ((s.dropWhile pyIsSpace).reverse.dropWhile pyIsSpace).reverse

/-- The terminal sentinel `[DONE]` (app.py line 212). -/
def sentinelStr : PyStr := pyof "[DONE]"

/-- Per-line prefix handling of app.py lines 209-210: if the line begins with
the literal `data:`, the code runs `raw_line.split("data:", 1)[1].strip()`,
i.e. it drops the five prefix characters and strips surrounding whitespace;
otherwise the line is used verbatim. -/
def processLine (line : PyStr) : PyStr :=
  if (pyof "data:").isPrefixOf line then pyStrip (line.drop 5) else line

/-- The Python values `json.loads` can produce (floats are not needed by any
claim and are omitted; the decoder is parametric in the parser anyway). -/
inductive PyVal where
  | none_ : PyVal
  | bool : Bool → PyVal
  | int : Int → PyVal
  | str : PyStr → PyVal
  | list : List PyVal → PyVal
  | dict : List (String × PyVal) → PyVal

/-- The Python exceptions the embedded code can raise. -/
inductive PyError where
  | attributeError
  | typeError
  | keyError
  | indexError
  | unicodeEncodeError
  | transportError
deriving DecidableEq

/-- Python truthiness for the modelled values. -/
def pyTruthy : PyVal → Bool
  | .none_ => false
  | .bool b => b
  | .int n => n != 0
  | .str s => !s.isEmpty
  | .list xs => !xs.isEmpty
  | .dict fs => !fs.isEmpty

/-- `fields.get(k, d)` on a Python dict given as an association list. -/
def dGet (fs : List (String × PyVal)) (k : String) (d : PyVal) : PyVal :=
  match fs.lookup k with
  | some v => v
  | none => d

/-- `v.get(k, d)`: dict lookup with default, `AttributeError` on non-dicts. -/
def pyGetE (v : PyVal) (k : String) (d : PyVal) : Except PyError PyVal :=
  match v with
  | .dict fs => .ok (dGet fs k d)
  | _ => .error .attributeError

/-- `v[0]` on a truthy Python value: head of a list, first character of a
string, `KeyError` for a (string-keyed) dict, `TypeError` otherwise. -/
def pySubscript0 : PyVal → Except PyError PyVal
  | .list xs =>
    match xs with
    | x :: _ => .ok x
    | [] => .error .indexError
  | .str cs =>
    match cs with
    | c :: _ => .ok (.str [c])
    | [] => .error .indexError
  | .dict _ => .error .keyError
  | _ => .error .typeError

/-- `a or b` in Python: `a` if truthy, else `b`. -/
def pyOr (a b : PyVal) : PyVal := if pyTruthy a then a else b

/-- Second-byte range check for a three-byte UTF-8 sequence (excludes
overlong encodings for `0xE0` and surrogates for `0xED`). -/
def utf8SecondOk3 (b0 b1 : Nat) : Bool :=
  if b0 == 0xE0 then 0xA0 ≤ b1 && b1 ≤ 0xBF
  else if b0 == 0xED then 0x80 ≤ b1 && b1 ≤ 0x9F
  else 0x80 ≤ b1 && b1 ≤ 0xBF

/-- Second-byte range check for a four-byte UTF-8 sequence (excludes
overlong encodings for `0xF0` and values above `U+10FFFF` for `0xF4`). -/
def utf8SecondOk4 (b0 b1 : Nat) : Bool :=
  if b0 == 0xF0 then 0x90 ≤ b1 && b1 ≤ 0xBF
  else if b0 == 0xF4 then 0x80 ≤ b1 && b1 ≤ 0x8F
  else 0x80 ≤ b1 && b1 ≤ 0xBF

/-- Strict UTF-8 decoding of a byte sequence, exactly the well-formed byte
sequences of the Unicode standard (what `bytes.decode("utf-8")` accepts);
`none` models a `UnicodeDecodeError`.  The fuel argument is always called
with at least the length of the list, so the fuel-exhaustion branch is
unreachable; it exists only to make the recursion structural. -/
def utf8DecodeAux : Nat → List Nat → Option (List Char)
  | _, [] => some []
  | 0, _ :: _ => none
  | fuel + 1, b0 :: rest =>
    if b0 ≤ 0x7F then
      match utf8DecodeAux fuel rest with
      | some cs => some (Char.ofNat b0 :: cs)
      | none => none
    else if b0 < 0xC2 then none
    else if b0 ≤ 0xDF then
      match rest with
      | b1 :: rest2 =>
        if 0x80 ≤ b1 && b1 ≤ 0xBF then
          match utf8DecodeAux fuel rest2 with
          | some cs => some (Char.ofNat (0x40 * (b0 - 0xC0) + (b1 - 0x80)) :: cs)
          | none => none
        else none
      | [] => none
    else if b0 ≤ 0xEF then
      match rest with
      | b1 :: b2 :: rest3 =>
        if utf8SecondOk3 b0 b1 && (0x80 ≤ b2 && b2 ≤ 0xBF) then
          match utf8DecodeAux fuel rest3 with
          | some cs =>
            some (Char.ofNat (0x1000 * (b0 - 0xE0) + 0x40 * (b1 - 0x80) + (b2 - 0x80)) :: cs)
          | none => none
        else none
      | _ => none
    else if b0 ≤ 0xF4 then
      match rest with
      | b1 :: b2 :: b3 :: rest4 =>
        if utf8SecondOk4 b0 b1 && (0x80 ≤ b2 && b2 ≤ 0xBF) && (0x80 ≤ b3 && b3 ≤ 0xBF) then
          match utf8DecodeAux fuel rest4 with
          | some cs =>
            some (Char.ofNat (0x40000 * (b0 - 0xF0) + 0x1000 * (b1 - 0x80) +
              0x40 * (b2 - 0x80) + (b3 - 0x80)) :: cs)
          | none => none
        else none
      | _ => none
    else none

/-- `bytes.decode("utf-8")` with strict error handling. -/
def utf8Decode (bs : List Nat) : Option (List Char) := utf8DecodeAux bs.length bs

/-- app.py lines 104-108:

```
def normalize_stream_text(text: str) -> str:
    try:
        return text.encode("latin1").decode("utf-8")
    except UnicodeDecodeError:
        return text
```

`text.encode("latin1")` raises `UnicodeEncodeError` when some codepoint is
at least 256, and that exception is *not* caught by the
`except UnicodeDecodeError` clause, so it escapes (`.error`).  When the
encoding succeeds the bytes are the codepoints themselves; a failing UTF-8
re-decode is caught and the original text returned. -/
def normalize_stream_text (text : PyStr) : Except PyError PyStr :=
  if text.all (fun c => c.toNat < 256) then
    match utf8Decode (text.map Char.toNat) with
    | none => .ok text
    | some cs => .ok cs
  else .error .unicodeEncodeError

/-- app.py lines 226-232 applied to a parsed chunk:

```
choices = chunk.get("choices", [])
if not choices:
    continue
delta = choices[0].get("delta") or {}
content_piece = delta.get("content")
if content_piece:
    ...
```

Returns `ok none` when the line is skipped (`continue` / falsy content),
`ok (some s)` with the raw content string when a fragment is extracted, and
an error when a Python exception is raised (non-dict `chunk`, non-dict
`choices[0]`, non-dict truthy `delta`, or truthy non-string content whose
`.encode` call in `normalize_stream_text` would raise `AttributeError`). -/
def streamFragment (chunk : PyVal) : Except PyError (Option PyStr) :=
  match pyGetE chunk "choices" (.list []) with
  | .error e => .error e
  | .ok choices =>
    if pyTruthy choices then
      match pySubscript0 choices with
      | .error e => .error e
      | .ok c0 =>
        match pyGetE c0 "delta" .none_ with
        | .error e => .error e
        | .ok d0 =>
          let delta := pyOr d0 (.dict [])
          match pyGetE delta "content" .none_ with
          | .error e => .error e
          | .ok content =>
            if pyTruthy content then
              match content with
              | .str s => .ok (some s)
              | _ => .error .attributeError
            else .ok none
    else .ok none

/-- What one raw line does to the decoding loop of app.py lines 206-233. -/
inductive LineAction where
  | skip : LineAction
  | sentinel : LineAction
  | logOnly : PyStr → LineAction
  | logFrag : PyStr → PyStr → LineAction
  | logRaise : PyStr → PyError → LineAction

/-- Parsing and extraction for a logged line (app.py lines 221-233): try
`json.loads`; on failure continue (the line stays logged but contributes no
fragment); on success extract and normalize `choices[0].delta.content`. -/
def parsedAction (loads : PyStr → Option PyVal) (t : PyStr) : LineAction :=
  match loads t with
  | none => .logOnly t
  | some chunk =>
    match streamFragment chunk with
    | .error e => .logRaise t e
    | .ok none => .logOnly t
    | .ok (some s) =>
      match normalize_stream_text s with
      | .error e => .logRaise t e
      | .ok s' => .logFrag t s'

/-- The complete per-line logic of the loop body (app.py lines 206-233):
skip falsy (empty) lines; strip an optional `data:` prefix; stop on the
sentinel; otherwise log the processed text and try to parse and extract a
normalized fragment from it. -/
def lineAction (loads : PyStr → Option PyVal) (line : PyStr) : LineAction :=
  if line = [] then .skip
  else if processLine line = sentinelStr then .sentinel
  else parsedAction loads (processLine line)

/-- How a streaming session ends: sentinel `break`, source exhaustion, or a
propagating Python exception. -/
inductive Outcome where
  | doneSentinel
  | exhausted
  | raised : PyError → Outcome
deriving DecidableEq

/-- The observable state of one streaming session: the `text_buffer` and
`raw_lines` lists of app.py lines 203-204, the input lines that were never
read, and how the loop ended. -/
structure RunResult where
  buf : List PyStr
  log : List PyStr
  remaining : List PyStr
  outcome : Outcome

/-- The streaming loop of app.py lines 206-233 over a list of input lines,
parametric in the JSON parser. -/
def runFrom (loads : PyStr → Option PyVal) :
    List PyStr → List PyStr → List PyStr → RunResult
  | [], buf, log => ⟨buf, log, [], .exhausted⟩
  | line :: rest, buf, log =>
    match lineAction loads line with
    | .skip => runFrom loads rest buf log
    | .sentinel => ⟨buf, log, rest, .doneSentinel⟩
    | .logOnly t => runFrom loads rest buf (log ++ [t])
    | .logFrag t f => runFrom loads rest (buf ++ [f]) (log ++ [t])
    | .logRaise t e => ⟨buf, log ++ [t], rest, .raised e⟩

/-- A full session over a line source that, when `dropped` is `true`, fails
with a transport error after yielding its lines (the `response.iter_lines`
iteration raising mid-stream; there is no `try` around the loop, so the
exception propagates). -/
def runSession (loads : PyStr → Option PyVal) (lines : List PyStr)
    (dropped : Bool) (buf log : List PyStr) : RunResult :=
  let r := runFrom loads lines buf log
  if dropped then
    match r.outcome with
    | .exhausted => ⟨r.buf, r.log, r.remaining, .raised .transportError⟩
    | _ => r
  else r

/-- What `main` delivers after the loop (app.py line 235):
`final_text = "".join(text_buffer).strip()` together with the raw log, or
`none` when an exception propagated out of the loop, in which case neither
is returned to the caller. -/
def sessionOutput (loads : PyStr → Option PyVal) (lines : List PyStr)
    (dropped : Bool) : Option (PyStr × List PyStr) :=
  let r := runSession loads lines dropped [] []
  match r.outcome with
  | .raised _ => none
  | _ => some (pyStrip r.buf.flatten, r.log)

/-- The fragments a session extracts, described compositionally per line:
the lines up to (excluding) the sentinel or a raising line each contribute
their normalized `delta.content` fragment, if any, in arrival order. -/
def specFragments (loads : PyStr → Option PyVal) : List PyStr → List PyStr
  | [] => []
  | l :: rest =>
    match lineAction loads l with
    | .skip => specFragments loads rest
    | .sentinel => []
    | .logOnly _ => specFragments loads rest
    | .logFrag _ f => f :: specFragments loads rest
    | .logRaise _ _ => []

/-- `raw_lines[-40:]`, the slice of the raw log the UI displays
(app.py line 217). -/
def displayedLog (log : List PyStr) : List PyStr := log.drop (log.length - 40)

/-- Does processing this line raise a Python exception? -/
def raisesOn (loads : PyStr → Option PyVal) (line : PyStr) : Bool :=
  match lineAction loads line with
  | .logRaise _ _ => true
  | _ => false

/-- Try to match the regex `https?://[^\s]+` at the start of `cs`
(app.py line 112): the scheme alternation prefers `https`, and the match
extends greedily over non-whitespace, requiring at least one character
after the scheme. -/
def matchUrlAt (cs : List Char) : Option PyStr :=
  if (pyof "https://").isPrefixOf cs then
    if (cs.drop 8).takeWhile (fun c => !pyIsSpace c) = [] then none
    else some (pyof "https://" ++ (cs.drop 8).takeWhile (fun c => !pyIsSpace c))
  else if (pyof "http://").isPrefixOf cs then
    if (cs.drop 7).takeWhile (fun c => !pyIsSpace c) = [] then none
    else some (pyof "http://" ++ (cs.drop 7).takeWhile (fun c => !pyIsSpace c))
  else none

/-- Leftmost match of `https?://[^\s]+`: scan positions left to right. -/
def findUrl : List Char → Option PyStr
  | [] => none
  | c :: rest =>
    match matchUrlAt (c :: rest) with
    | some u => some u
    | none => findUrl rest

/-- app.py lines 111-113:

```
def extract_first_url(text: str) -> Optional[str]:
    urls = re.findall(r"https?://[^\s]+", text)
    return urls[0] if urls else None
```
-/
def extract_first_url (text : PyStr) : Option PyStr := findUrl text

/-- Python `str.lower`, restricted to the codepoints that can influence the
ASCII suffix comparisons below: ASCII letters, plus U+212A (KELVIN SIGN),
the one codepoint whose Python lowercase is an ASCII letter occurring in
the suffix allow-list.  All other codepoints lowercase to non-ASCII
codepoints and are left unchanged, which cannot change the outcome of an
`endswith` test against an ASCII suffix. -/
def pyLowerChar (c : Char) : Char :=
  if 65 ≤ c.toNat && c.toNat ≤ 90 then Char.ofNat (c.toNat + 32)
  else if c.toNat == 0x212A then 'k'
  else c

/-- The extension allow-list of app.py lines 240 and 282. -/
def VIDEO_SUFFIXES : List String := [".mp4", ".mov", ".webm", ".mkv"]

/-- `candidate.lower().endswith((".mp4", ".mov", ".webm", ".mkv"))`. -/
def suffixMatch (cand : PyStr) : Bool :=
  VIDEO_SUFFIXES.any (fun s => (pyof s).isSuffixOf (cand.map pyLowerChar))

/-- The three terminal classifications of the Artifact Resolver. -/
inductive Classification where
  | RecognizedMedia
  | UnrecognizedLink
  | NoLink
deriving DecidableEq

/-- app.py lines 238-255 given a non-empty `final_text`: the first URL in
the text, suffix-checked case-insensitively against the allow-list. -/
def classifyText (text : PyStr) : Classification :=
  match extract_first_url text with
  | some cand => if suffixMatch cand then .RecognizedMedia else .UnrecognizedLink
  | none => .NoLink

/-- The streaming branch after the loop (app.py lines 236-257): resolution
runs only when `final_text` is non-empty; an empty final text shows a
"no text content" notice instead of a classification. -/
def streamResolve (finalText : PyStr) : Option Classification :=
  if finalText = [] then none else some (classifyText finalText)

/-- The `video_url` computed by the non-streaming branch, app.py
lines 269-280: walk `choices[0].message.content[0]`, preferring `url` over
`text` when the first content element is a dict, taking the element itself
when it is a string, and leaving `video_url = None` otherwise. -/
def nonStreamingVideoUrl (data : PyVal) : Except PyError PyVal :=
  match data with
  | .dict fs =>
    let choices := dGet fs "choices" (.list [])
    if pyTruthy choices then
      match pySubscript0 choices with
      | .error e => .error e
      | .ok c0 =>
        match pyGetE c0 "message" (.dict []) with
        | .error e => .error e
        | .ok message =>
          match pyGetE message "content" (.list []) with
          | .error e => .error e
          | .ok contents =>
            if pyTruthy contents then
              match pySubscript0 contents with
              | .error e => .error e
              | .ok first =>
                match first with
                | .dict gs => .ok (pyOr (dGet gs "url" .none_) (dGet gs "text" .none_))
                | .str s => .ok (.str s)
                | _ => .ok .none_
            else .ok .none_
    else .ok .none_
  | _ => .ok .none_

/-- What the non-streaming branch displays for the resolved value. -/
inductive NSDisplay where
  | video : PyStr → NSDisplay
  | warnLink : PyStr → NSDisplay
  | nothing : NSDisplay

/-- app.py lines 282-292:

```
if video_url and video_url.lower().endswith((".mp4", ".mov", ".webm", ".mkv")):
    st.video(video_url) ...
elif video_url:
    st.warning(...)
```

A truthy non-string `video_url` raises `AttributeError` at `.lower()`;
a falsy one displays nothing (there is no NoLink branch here). -/
def nonStreamingDisplay (data : PyVal) : Except PyError NSDisplay :=
  match nonStreamingVideoUrl data with
  | .error e => .error e
  | .ok vu =>
    if pyTruthy vu then
      match vu with
      | .str s => if suffixMatch s then .ok (.video s) else .ok (.warnLink s)
      | _ => .error .attributeError
    else .ok .nothing

/-- `json.loads` on inputs that are not valid JSON: it raises
`json.JSONDecodeError` (for example on `"x"`, `"oops"`, `""`, or a
whitespace-only string). -/
def loadsNone : PyStr → Option PyVal := fun _ => none

/-- `json.loads` restricted to the input `"5"`: `json.loads("5") == 5`,
a valid-JSON integer; every other input is treated as invalid. -/
def loads5 : PyStr → Option PyVal := fun s =>
  if s = pyof "5" then some (.int 5) else none

/-- The parsed chunk `json.loads('{"choices":[{"delta":{"content":"A"}}]}')`. -/
def chunkA : PyVal :=
  .dict [("choices", .list [.dict [("delta", .dict [("content", .str (pyof "A"))])]])]

/-- The parsed chunk `json.loads('{"choices":[{"delta":{"content":"B"}}]}')`. -/
def chunkB : PyVal :=
  .dict [("choices", .list [.dict [("delta", .dict [("content", .str (pyof "B"))])]])]

/-- The chunk frame text carrying fragment `"A"` (after prefix stripping). -/
def frameTextA : PyStr :=
  pyof "\x7b\"choices\":[\x7b\"delta\":\x7b\"content\":\"A\"\x7d\x7d]\x7d"

/-- The chunk frame text carrying fragment `"B"` (after prefix stripping). -/
def frameTextB : PyStr :=
  pyof "\x7b\"choices\":[\x7b\"delta\":\x7b\"content\":\"B\"\x7d\x7d]\x7d"

/-- `json.loads` on the two chunk frame texts above (matching Python:
each parses to the corresponding chunk object); other inputs invalid. -/
def loadsAB : PyStr → Option PyVal := fun s =>
  if s = frameTextA then some chunkA
  else if s = frameTextB then some chunkB
  else none

/-- The raw line `data: {"choices":[{"delta":{"content":"A"}}]}`. -/
def rawLineA : PyStr := pyof "data: " ++ frameTextA

/-- The raw line `data: {"choices":[{"delta":{"content":"B"}}]}`. -/
def rawLineB : PyStr := pyof "data: " ++ frameTextB

/-- The decoded non-streaming response
`{"choices":[{"message":{"content":[{"url":"https://x.com/v.webm"}]}}]}`. -/
def scenarioData : PyVal :=
  .dict [("choices", .list [.dict [("message", .dict [("content",
    .list [.dict [("url", .str (pyof "https://x.com/v.webm"))]])])]])]

/-- A decoded non-streaming response whose extracted field is a sentence
containing a media URL strictly inside it. -/
def dataMixed : PyVal :=
  .dict [("choices", .list [.dict [("message", .dict [("content",
    .list [.str (pyof "video at https://x.com/v.mp4 here")])])]])]

/-- A decoded non-streaming response whose extracted field is the plain
string `"hello"` (truthy, containing no URL). -/
def dataHello : PyVal :=
  .dict [("choices", .list [.dict [("message", .dict [("content",
    .list [.str (pyof "hello")])])]])]

/-- The declarative description of one regex match of `https?://[^\s]+`
at the start of `cs`: `cs` begins with a scheme, and `u` is the scheme
followed by the maximal non-whitespace run after it, which is non-empty. -/
def SchemeAt (cs : List Char) (u : PyStr) : Prop :=
  ∃ scheme tail, (scheme = pyof "http://" ∨ scheme = pyof "https://") ∧
    cs = scheme ++ tail ∧
    u = scheme ++ tail.takeWhile (fun c => !pyIsSpace c) ∧
    tail.takeWhile (fun c => !pyIsSpace c) ≠ []

/-- The spec-side suffix condition: some allow-listed extension is a
case-insensitive suffix of the candidate. -/
def SpecSuffixOK (cand : PyStr) : Prop :=
  ∃ s, s ∈ VIDEO_SUFFIXES ∧ (pyof s).isSuffixOf (cand.map pyLowerChar) = true

/-! ## Helper lemmas about the decoding loop -/

theorem runFrom_cons_skip {loads : PyStr → Option PyVal} {l : PyStr}
    {rest buf log : List PyStr} (h : lineAction loads l = .skip) :
    runFrom loads (l :: rest) buf log = runFrom loads rest buf log := by
  simp only [runFrom, h]

theorem runFrom_cons_sentinel {loads : PyStr → Option PyVal} {l : PyStr}
    {rest buf log : List PyStr} (h : lineAction loads l = .sentinel) :
    runFrom loads (l :: rest) buf log = ⟨buf, log, rest, .doneSentinel⟩ := by
  simp only [runFrom, h]

theorem runFrom_cons_logOnly {loads : PyStr → Option PyVal} {l t : PyStr}
    {rest buf log : List PyStr} (h : lineAction loads l = .logOnly t) :
    runFrom loads (l :: rest) buf log = runFrom loads rest buf (log ++ [t]) := by
  simp only [runFrom, h]

theorem runFrom_cons_logFrag {loads : PyStr → Option PyVal} {l t f : PyStr}
    {rest buf log : List PyStr} (h : lineAction loads l = .logFrag t f) :
    runFrom loads (l :: rest) buf log = runFrom loads rest (buf ++ [f]) (log ++ [t]) := by
  simp only [runFrom, h]

theorem runFrom_cons_logRaise {loads : PyStr → Option PyVal} {l t : PyStr} {e : PyError}
    {rest buf log : List PyStr} (h : lineAction loads l = .logRaise t e) :
    runFrom loads (l :: rest) buf log = ⟨buf, log ++ [t], rest, .raised e⟩ := by
  simp only [runFrom, h]

theorem parsedAction_ne_sentinel (loads : PyStr → Option PyVal) (t : PyStr) :
    parsedAction loads t ≠ .sentinel := by
  unfold parsedAction
  (repeat' split) <;> simp

theorem parsedAction_ne_skip (loads : PyStr → Option PyVal) (t : PyStr) :
    parsedAction loads t ≠ .skip := by
  unfold parsedAction
  (repeat' split) <;> simp

theorem processLine_nil : processLine [] = [] := by decide

theorem lineAction_sentinel_iff (loads : PyStr → Option PyVal) (l : PyStr) :
    lineAction loads l = .sentinel ↔ processLine l = sentinelStr := by
  by_cases he : l = []
  · subst he
    simp only [lineAction, if_pos rfl, processLine_nil]
    constructor
    · intro h; exact absurd h (by simp)
    · intro h; exact absurd h (by decide)
  · by_cases hs : processLine l = sentinelStr
    · simp [lineAction, he, hs]
    · simp [lineAction, he, hs, parsedAction_ne_sentinel]

theorem runFrom_buf (loads : PyStr → Option PyVal) :
    ∀ (lines buf log : List PyStr),
      (runFrom loads lines buf log).buf = buf ++ specFragments loads lines
  | [], buf, log => by simp [runFrom, specFragments]
  | l :: rest, buf, log => by
    cases h : lineAction loads l with
    | skip =>
      rw [runFrom_cons_skip h, runFrom_buf loads rest buf log]
      simp [specFragments, h]
    | sentinel => simp [runFrom_cons_sentinel h, specFragments, h]
    | logOnly t =>
      rw [runFrom_cons_logOnly h, runFrom_buf loads rest buf (log ++ [t])]
      simp [specFragments, h]
    | logFrag t f =>
      rw [runFrom_cons_logFrag h, runFrom_buf loads rest (buf ++ [f]) (log ++ [t])]
      simp [specFragments, h]
    | logRaise t e => simp [runFrom_cons_logRaise h, specFragments, h]

theorem runFrom_log (loads : PyStr → Option PyVal) :
    ∀ (lines buf log : List PyStr),
      (runFrom loads lines buf log).log = log ++ (runFrom loads lines buf []).log
  | [], buf, log => by simp [runFrom]
  | l :: rest, buf, log => by
    cases h : lineAction loads l with
    | skip => rw [runFrom_cons_skip h, runFrom_cons_skip h, runFrom_log loads rest buf log]
    | sentinel => simp [runFrom_cons_sentinel h]
    | logOnly t =>
      rw [runFrom_cons_logOnly h, runFrom_cons_logOnly h,
        runFrom_log loads rest buf (log ++ [t]), runFrom_log loads rest buf ([] ++ [t])]
      simp
    | logFrag t f =>
      rw [runFrom_cons_logFrag h, runFrom_cons_logFrag h,
        runFrom_log loads rest (buf ++ [f]) (log ++ [t]),
        runFrom_log loads rest (buf ++ [f]) ([] ++ [t])]
      simp
    | logRaise t e => simp [runFrom_cons_logRaise h]

theorem processLine_eq_self_of_ws (line : PyStr)
    (hws : ∀ c ∈ line, pyIsSpace c = true) : processLine line = line := by
  unfold processLine
  rw [if_neg]
  intro hpre
  obtain ⟨t, ht⟩ := List.isPrefixOf_iff_prefix.1 hpre
  have hd : 'd' ∈ line := ht ▸ List.mem_append_left t (by decide)
  exact absurd (hws 'd' hd) (by decide)

/-! ## Claim C2: totality of `normalize_stream_text` -/

/-- C2, amended.  The normalization step is total only on fragments whose
codepoints are all below 256: there, when the UTF-8 re-decoding of the byte
reinterpretation fails it returns the original fragment unmodified, and
otherwise it returns the re-decoded text.  On a fragment containing any
codepoint of 256 or above, the byte reinterpretation (`encode("latin1")`)
itself fails with a `UnicodeEncodeError` that the `except
UnicodeDecodeError` clause does not catch, so the function raises. -/
theorem claim2_normalize_total_only_below_256 (text : PyStr) :
    ((∀ c ∈ text, c.toNat < 256) → utf8Decode (text.map Char.toNat) = none →
      normalize_stream_text text = .ok text)
    ∧ ((∀ c ∈ text, c.toNat < 256) → ∀ cs, utf8Decode (text.map Char.toNat) = some cs →
      normalize_stream_text text = .ok cs)
    ∧ ((∃ c ∈ text, 256 ≤ c.toNat) → normalize_stream_text text = .error .unicodeEncodeError) := by
  have hall : (∀ c ∈ text, c.toNat < 256) →
      text.all (fun c => c.toNat < 256) = true :=
    fun h => List.all_eq_true.2 (fun c hc => decide_eq_true (h c hc))
  refine ⟨fun h hd => ?_, fun h cs hd => ?_, fun h => ?_⟩
  · unfold normalize_stream_text
    rw [if_pos (hall h), hd]
  · unfold normalize_stream_text
    rw [if_pos (hall h), hd]
  · obtain ⟨c, hc, h256⟩ := h
    unfold normalize_stream_text
    rw [if_neg]
    intro hcontra
    have := List.all_eq_true.1 hcontra c hc
    rw [decide_eq_true_eq] at this
    omega

/-- Witness for C2: a latin1-only fragment that is not valid UTF-8 is
returned unmodified, and a mis-decoded UTF-8 pair is repaired. -/
theorem claim2_witness :
    normalize_stream_text (pyof "ÿ") = .ok (pyof "ÿ")
    ∧ normalize_stream_text [Char.ofNat 0xC3, Char.ofNat 0xA9] = .ok (pyof "é") := by
  constructor
  · exact (claim2_normalize_total_only_below_256 (pyof "ÿ")).1 (by decide) (by decide)
  · exact (claim2_normalize_total_only_below_256 _).2.1 (by decide) _ (by decide)

/-- Counterexample to C2 as stated: on the fragment `"中"` (codepoint
0x4E2D ≥ 256) the byte-reinterpretation step fails and the function raises
`UnicodeEncodeError` instead of returning the original fragment. -/
theorem claim2_counterexample :
    normalize_stream_text (pyof "中") = .error .unicodeEncodeError := rfl

/-! ## Claim C1: absorption of malformed lines -/

/-- C1, amended.  A non-empty, non-sentinel line that is not valid JSON, or
whose parsed value tolerably lacks the expected shape (extraction runs
without a Python exception and yields no fragment: an object without a
truthy `choices`, a first choice without a truthy `delta`, or a falsy
`content`), is absorbed: decoding continues with the next line, the line is
retained in the raw log, and the text buffer is unchanged.  Valid JSON of
non-object type, or with mistyped nested fields, instead raises out of the
loop (see the counterexample). -/
theorem claim1_malformed_line_absorbed (loads : PyStr → Option PyVal)
    (line : PyStr) (rest buf log : List PyStr)
    (hne : line ≠ []) (hns : processLine line ≠ sentinelStr)
    (habsorb : loads (processLine line) = none ∨
      ∃ v, loads (processLine line) = some v ∧ streamFragment v = .ok none) :
    runFrom loads (line :: rest) buf log = runFrom loads rest buf (log ++ [processLine line]) := by
  have hA : lineAction loads line = .logOnly (processLine line) := by
    unfold lineAction
    rw [if_neg hne, if_neg hns]
    rcases habsorb with h | ⟨v, hv, hf⟩
    · simp [parsedAction, h]
    · simp [parsedAction, hv, hf]
  exact runFrom_cons_logOnly hA

/-- Witness for C1 (amended): an invalid-JSON line is logged and skipped. -/
theorem claim1_witness :
    runFrom loadsNone [pyof "oops"] [] [] = runFrom loadsNone [] [] [pyof "oops"] :=
  claim1_malformed_line_absorbed loadsNone (pyof "oops") [] [] []
    (by decide) (by decide) (Or.inl rfl)

/-- Counterexample to C1 as stated: the line `5` is valid JSON
(`json.loads("5") == 5`) lacking the expected shape, yet the decoder does
not absorb it — `chunk.get("choices", [])` raises `AttributeError` on the
integer, aborting decoding (the line is still logged first). -/
theorem claim1_counterexample :
    loads5 (pyof "5") = some (.int 5)
    ∧ runFrom loads5 [pyof "5"] [] [] = ⟨[], [pyof "5"], [], .raised .attributeError⟩ :=
  ⟨rfl, rfl⟩

/-! ## Claim C7: empty and whitespace-only lines -/

/-- C7, amended.  An empty line contributes nothing to the text buffer or
the raw log.  But a non-empty whitespace-only line is appended verbatim to
the raw log (it fails the `if not raw_line` test, does not carry the
`data:` prefix and is not the sentinel), and a `data:`-prefixed line whose
remainder is empty after trimming is appended to the raw log as an empty
entry; both contribute nothing to the text buffer since their processed
text is not valid JSON. -/
theorem claim7_blank_lines (loads : PyStr → Option PyVal) (rest buf log : List PyStr) :
    (runFrom loads (([] : PyStr) :: rest) buf log = runFrom loads rest buf log)
    ∧ (∀ line : PyStr, line ≠ [] → (∀ c ∈ line, pyIsSpace c = true) → loads line = none →
        runFrom loads (line :: rest) buf log = runFrom loads rest buf (log ++ [line]))
    ∧ (∀ line : PyStr, (pyof "data:").isPrefixOf line = true →
        pyStrip (line.drop 5) = [] → loads [] = none →
        runFrom loads (line :: rest) buf log = runFrom loads rest buf (log ++ [[]])) := by
  refine ⟨?_, ?_, ?_⟩
  · exact runFrom_cons_skip (by simp [lineAction])
  · intro line hne hws hloads
    have hp : processLine line = line := processLine_eq_self_of_ws line hws
    have hsent : processLine line ≠ sentinelStr := by
      rw [hp]
      intro he
      have := hws '[' (he ▸ (by decide : '[' ∈ sentinelStr))
      exact absurd this (by decide)
    have hA : lineAction loads line = .logOnly line := by
      unfold lineAction
      rw [if_neg hne, if_neg hsent, hp]
      unfold parsedAction; rw [hloads]
    exact runFrom_cons_logOnly hA
  · intro line hpre hstrip hloads
    have hne : line ≠ [] := by
      intro he; rw [he] at hpre; exact absurd hpre (by decide)
    have hp : processLine line = [] := by
      unfold processLine; rw [if_pos hpre]; exact hstrip
    have hsent : processLine line ≠ sentinelStr := by
      rw [hp]; decide
    have hA : lineAction loads line = .logOnly [] := by
      unfold lineAction
      rw [if_neg hne, if_neg hsent, hp]
      unfold parsedAction; rw [hloads]
    exact runFrom_cons_logOnly hA

/-- Witness for C7 (amended) at concrete lines: empty, single-space, and
bare `data:` lines. -/
theorem claim7_witness :
    runFrom loadsNone [([] : PyStr)] [] [] = runFrom loadsNone [] [] []
    ∧ runFrom loadsNone [pyof " "] [] [] = runFrom loadsNone [] [] [pyof " "]
    ∧ runFrom loadsNone [pyof "data:"] [] [] = runFrom loadsNone [] [] [[]] :=
  ⟨(claim7_blank_lines loadsNone [] [] []).1,
   (claim7_blank_lines loadsNone [] [] []).2.1 (pyof " ") (by decide) (by decide) rfl,
   (claim7_blank_lines loadsNone [] [] []).2.2 (pyof "data:") (by decide) (by decide) rfl⟩

/-- Counterexample to C7 as stated: a whitespace-only line and a bare
`data:` line each contribute an entry to the trailing log. -/
theorem claim7_counterexample :
    (runFrom loadsNone [pyof " "] [] []).log = [pyof " "]
    ∧ (runFrom loadsNone [pyof "data: "] [] []).log = [([] : PyStr)] :=
  ⟨rfl, rfl⟩

/-! ## Claim C9: the bounded trailing log -/

/-- C9, amended.  The raw-line buffer is append-only: entries already in
the log are never discarded, so the buffer retains every logged frame of
the session, not just the last 40.  Only the *displayed* slice
`raw_lines[-40:]` is bounded: it has at most 40 entries and is a suffix of
the full buffer. -/
theorem claim9_log_retention (loads : PyStr → Option PyVal) (lines buf log : List PyStr) :
    (runFrom loads lines buf log).log = log ++ (runFrom loads lines buf []).log
    ∧ (displayedLog (runFrom loads lines buf log).log).length ≤ 40
    ∧ displayedLog (runFrom loads lines buf log).log <:+ (runFrom loads lines buf log).log := by
  refine ⟨runFrom_log loads lines buf log, ?_, List.drop_suffix _ _⟩
  unfold displayedLog
  rw [List.length_drop]
  omega

/-- Counterexample to C9 as stated: a session of 41 logged frames leaves
all 41 in the log buffer — frames older than the most recent 40 are not
discarded from it. -/
theorem claim9_counterexample :
    (runFrom loadsNone (List.replicate 41 (pyof "x")) [] []).log.length = 41
    ∧ 40 < 41 :=
  ⟨rfl, by decide⟩

/-! ## Claim C3: AccumulatedText is the ordered concatenation of fragments -/

/-- C3, confirmed.  Whenever a streaming session completes (by sentinel or
source exhaustion, without a propagating exception), the returned final
text equals the concatenation, in arrival order with no reordering or
deduplication, of the successfully extracted non-empty normalized
`delta.content` fragments, with whitespace stripped from the concatenated
result only; the text buffer is exactly that fragment list. -/
theorem claim3_accumulated_text (loads : PyStr → Option PyVal) (lines : List PyStr)
    (txt : PyStr) (lg : List PyStr)
    (h : sessionOutput loads lines false = some (txt, lg)) :
    txt = pyStrip (specFragments loads lines).flatten
    ∧ (runFrom loads lines [] []).buf = specFragments loads lines := by
  have hbuf : (runFrom loads lines [] []).buf = specFragments loads lines := by
    simpa using runFrom_buf loads lines [] []
  refine ⟨?_, hbuf⟩
  have hr : runSession loads lines false [] [] = runFrom loads lines [] [] := rfl
  simp only [sessionOutput] at h
  rw [hr] at h
  cases ho : (runFrom loads lines [] []).outcome with
  | raised e => rw [ho] at h; simp at h
  | doneSentinel =>
    rw [ho] at h
    simp only [Option.some.injEq, Prod.mk.injEq] at h
    rw [← h.1, hbuf]
  | exhausted =>
    rw [ho] at h
    simp only [Option.some.injEq, Prod.mk.injEq] at h
    rw [← h.1, hbuf]

/-- Witness for C3: the round-trip of the spec, frames `A`, `B`, `[DONE]`,
yields final text `AB`. -/
theorem claim3_witness :
    pyof "AB" = pyStrip (specFragments loadsAB [rawLineA, rawLineB, pyof "data: [DONE]"]).flatten :=
  (claim3_accumulated_text loadsAB [rawLineA, rawLineB, pyof "data: [DONE]"]
    (pyof "AB") [frameTextA, frameTextB] rfl).1

/-! ## Claim C4: sentinel termination -/

theorem doneSentinel_decomp (loads : PyStr → Option PyVal) :
    ∀ (lines buf log : List PyStr), (runFrom loads lines buf log).outcome = .doneSentinel →
      ∃ pre s rest, lines = pre ++ s :: rest ∧ processLine s = sentinelStr
  | [], buf, log => by
    intro h
    simp [runFrom] at h
  | l :: rest, buf, log => by
    intro h
    cases hA : lineAction loads l with
    | skip =>
      obtain ⟨pre, s, r2, hd, hs⟩ :=
        doneSentinel_decomp loads rest buf log (by rwa [runFrom_cons_skip hA] at h)
      exact ⟨l :: pre, s, r2, by rw [hd]; rfl, hs⟩
    | sentinel =>
      exact ⟨[], l, rest, rfl, (lineAction_sentinel_iff loads l).1 hA⟩
    | logOnly t =>
      obtain ⟨pre, s, r2, hd, hs⟩ :=
        doneSentinel_decomp loads rest buf (log ++ [t])
          (by rwa [runFrom_cons_logOnly hA] at h)
      exact ⟨l :: pre, s, r2, by rw [hd]; rfl, hs⟩
    | logFrag t f =>
      obtain ⟨pre, s, r2, hd, hs⟩ :=
        doneSentinel_decomp loads rest (buf ++ [f]) (log ++ [t])
          (by rwa [runFrom_cons_logFrag hA] at h)
      exact ⟨l :: pre, s, r2, by rw [hd]; rfl, hs⟩
    | logRaise t e =>
      rw [runFrom_cons_logRaise hA] at h
      simp at h

theorem no_sentinel_exhausts (loads : PyStr → Option PyVal) :
    ∀ (lines buf log : List PyStr),
      (∀ l ∈ lines, processLine l ≠ sentinelStr ∧ raisesOn loads l = false) →
      (runFrom loads lines buf log).outcome = .exhausted
      ∧ (runFrom loads lines buf log).remaining = []
  | [], _, _ => fun _ => ⟨rfl, rfl⟩
  | l :: rest, buf, log => by
    intro h
    have hl := h l (List.mem_cons_self l rest)
    have hrest : ∀ x ∈ rest, processLine x ≠ sentinelStr ∧ raisesOn loads x = false :=
      fun x hx => h x (List.mem_cons_of_mem l hx)
    cases hA : lineAction loads l with
    | skip =>
      rw [runFrom_cons_skip hA]
      exact no_sentinel_exhausts loads rest buf log hrest
    | sentinel => exact absurd ((lineAction_sentinel_iff loads l).1 hA) hl.1
    | logOnly t =>
      rw [runFrom_cons_logOnly hA]
      exact no_sentinel_exhausts loads rest buf (log ++ [t]) hrest
    | logFrag t f =>
      rw [runFrom_cons_logFrag hA]
      exact no_sentinel_exhausts loads rest (buf ++ [f]) (log ++ [t]) hrest
    | logRaise t e => simp [raisesOn, hA] at hl

/-- C4, confirmed.  A line whose processed text (verbatim, or with the
`data:` prefix stripped and whitespace trimmed — in particular
`data: [DONE]` with any whitespace after the colon) equals the literal
`[DONE]` terminates the session immediately, leaving the remaining lines
unread and nothing of its own in the log or buffer; sentinel termination
happens only when some line's processed text equals `[DONE]`; and when no
line is a sentinel (and none raises), the loop ends only by exhausting the
source, having read every line. -/
theorem claim4_sentinel_termination (loads : PyStr → Option PyVal)
    (lines buf log : List PyStr) :
    (∀ (s : PyStr) (rest : List PyStr), lines = s :: rest → processLine s = sentinelStr →
        runFrom loads lines buf log = ⟨buf, log, rest, .doneSentinel⟩)
    ∧ ((runFrom loads lines buf log).outcome = .doneSentinel →
        ∃ pre s rest, lines = pre ++ s :: rest ∧ processLine s = sentinelStr)
    ∧ ((∀ l ∈ lines, processLine l ≠ sentinelStr ∧ raisesOn loads l = false) →
        (runFrom loads lines buf log).outcome = .exhausted
        ∧ (runFrom loads lines buf log).remaining = []) := by
  refine ⟨?_, doneSentinel_decomp loads lines buf log, no_sentinel_exhausts loads lines buf log⟩
  intro s rest hl hs
  subst hl
  exact runFrom_cons_sentinel ((lineAction_sentinel_iff loads s).2 hs)

/-- Witness for C4: `data: [DONE]` stops reading immediately (the line
`x` after it stays unread); a sentinel session decomposes; a
sentinel-free session exhausts its source. -/
theorem claim4_witness :
    runFrom loadsNone [pyof "data: [DONE]", pyof "x"] [] [] = ⟨[], [], [pyof "x"], .doneSentinel⟩
    ∧ (∃ pre s rest, [pyof "data: [DONE]"] = pre ++ s :: rest ∧ processLine s = sentinelStr)
    ∧ ((runFrom loadsNone [pyof "x"] [] []).outcome = .exhausted
        ∧ (runFrom loadsNone [pyof "x"] [] []).remaining = []) :=
  ⟨(claim4_sentinel_termination loadsNone [pyof "data: [DONE]", pyof "x"] [] []).1
      (pyof "data: [DONE]") [pyof "x"] rfl (by decide),
   (claim4_sentinel_termination loadsNone [pyof "data: [DONE]"] [] []).2.1 rfl,
   (claim4_sentinel_termination loadsNone [pyof "x"] [] []).2.2 (by decide)⟩

/-! ## Claim C6: transport failure mid-stream -/

/-- C6, amended.  When the line source fails mid-stream (after its lines,
before any sentinel), the session's partial text buffer and partial log are
well-defined up to the failure point, but the transport exception
propagates out of the unprotected `for` loop: the session returns nothing
to the caller — the partial AccumulatedText is discarded rather than
returned alongside the error (only the incrementally rendered trailing-log
display survives on screen). -/
theorem claim6_partial_discarded (loads : PyStr → Option PyVal) (lines : List PyStr)
    (h : (runFrom loads lines [] []).outcome = .exhausted) :
    runSession loads lines true [] [] =
      ⟨(runFrom loads lines [] []).buf, (runFrom loads lines [] []).log,
        (runFrom loads lines [] []).remaining, .raised .transportError⟩
    ∧ sessionOutput loads lines true = none := by
  have h1 : runSession loads lines true [] [] =
      ⟨(runFrom loads lines [] []).buf, (runFrom loads lines [] []).log,
        (runFrom loads lines [] []).remaining, .raised .transportError⟩ := by
    simp only [runSession, if_pos]
    rw [h]
  refine ⟨h1, ?_⟩
  simp only [sessionOutput]
  rw [h1]

/-- Witness for C6 (amended): two valid fragments then a transport drop. -/
theorem claim6_witness : sessionOutput loadsAB [rawLineA, rawLineB] true = none :=
  (claim6_partial_discarded loadsAB [rawLineA, rawLineB] rfl).2

/-- Counterexample to C6 as stated: after two valid fragments `A`, `B` and
a transport drop before `[DONE]`, the session returns `none` — the
best-effort concatenation `AB` is not returned to the caller alongside the
transport error. -/
theorem claim6_counterexample :
    (runFrom loadsAB [rawLineA, rawLineB] [] []).buf = [pyof "A", pyof "B"]
    ∧ (runSession loadsAB [rawLineA, rawLineB] true [] []).outcome = .raised .transportError
    ∧ sessionOutput loadsAB [rawLineA, rawLineB] true = none :=
  ⟨rfl, rfl, rfl⟩

/-! ## Claim C5: classification of the streaming candidate URL -/

theorem suffixMatch_iff (cand : PyStr) : suffixMatch cand = true ↔ SpecSuffixOK cand := by
  unfold suffixMatch SpecSuffixOK
  rw [List.any_eq_true]

/-- C5, confirmed.  For a non-empty final text: resolution classifies it;
with no URL-pattern substring the classification is NoLink; with a
candidate URL it is RecognizedMedia exactly when one of the allow-listed
suffixes `.mp4`, `.mov`, `.webm`, `.mkv` is a case-insensitive suffix of
the candidate, and UnrecognizedLink otherwise. -/
theorem claim5_classification (text : PyStr) (h : text ≠ []) :
    streamResolve text = some (classifyText text)
    ∧ (extract_first_url text = none → classifyText text = .NoLink)
    ∧ ∀ cand, extract_first_url text = some cand →
        ((classifyText text = .RecognizedMedia ↔ SpecSuffixOK cand)
         ∧ (¬ SpecSuffixOK cand → classifyText text = .UnrecognizedLink)) := by
  refine ⟨by unfold streamResolve; rw [if_neg h], ?_, ?_⟩
  · intro h0
    unfold classifyText
    rw [h0]
  · intro cand hc
    simp only [classifyText, hc]
    by_cases hm : suffixMatch cand = true
    · rw [if_pos hm]
      exact ⟨⟨fun _ => (suffixMatch_iff cand).1 hm, fun _ => rfl⟩,
        fun hn => absurd ((suffixMatch_iff cand).1 hm) hn⟩
    · rw [if_neg hm]
      refine ⟨⟨fun hco => absurd hco (by decide), fun hok => ?_⟩, fun _ => rfl⟩
      exact absurd ((suffixMatch_iff cand).2 hok) hm

/-- Witness for C5 at the spec's examples: `page.html` is an unrecognized
link and URL-free text is NoLink (and `video.MP4` is recognized
case-insensitively). -/
theorem claim5_witness :
    classifyText (pyof "see https://host/path/page.html") = .UnrecognizedLink
    ∧ classifyText (pyof "no links here") = .NoLink
    ∧ classifyText (pyof "https://host/path/video.MP4") = .RecognizedMedia :=
  ⟨((claim5_classification (pyof "see https://host/path/page.html") (by decide)).2.2
      (pyof "https://host/path/page.html") (by decide)).2
      (by unfold SpecSuffixOK; decide),
   (claim5_classification (pyof "no links here") (by decide)).2.1 (by decide),
   ((claim5_classification (pyof "https://host/path/video.MP4") (by decide)).2.2
      (pyof "https://host/path/video.MP4") (by decide)).1.2
      (by unfold SpecSuffixOK; decide)⟩

/-! ## Claim C8: non-streaming resolution -/

/-- C8, amended.  Non-streaming resolution extracts
`choices[0].message.content[0]` (preferring `url` over `text` for a dict
element, taking a string element itself), but it uses the extracted field
itself as the candidate — it never scans the field for a URL-pattern
substring — and it has no NoLink outcome: a truthy extracted string is
shown as a video exactly when the allow-listed suffix check succeeds on
the whole field and as a warning link otherwise (even when the field
contains no URL at all), while a falsy or absent value displays nothing.
The spec's scenario `{"choices":[{"message":{"content":[{"url":
"https://x.com/v.webm"}]}}]}` does resolve to that URL as recognized
media. -/
theorem claim8_nonstreaming :
    nonStreamingDisplay scenarioData = .ok (.video (pyof "https://x.com/v.webm"))
    ∧ (∀ (data : PyVal) (s : PyStr), nonStreamingVideoUrl data = .ok (.str s) → s ≠ [] →
        nonStreamingDisplay data =
          .ok (if suffixMatch s then NSDisplay.video s else NSDisplay.warnLink s))
    ∧ (∀ (data v : PyVal), nonStreamingVideoUrl data = .ok v → pyTruthy v = false →
        nonStreamingDisplay data = .ok .nothing) := by
  refine ⟨rfl, ?_, ?_⟩
  · intro data s hvu hs
    have ht : pyTruthy (.str s) = true := by
      simp [pyTruthy, hs]
    simp only [nonStreamingDisplay, hvu, ht, if_true]
    by_cases hm : suffixMatch s = true
    · rw [if_pos hm, if_pos hm]
    · rw [if_neg hm, if_neg hm]
  · intro data v hvu hv
    simp only [nonStreamingDisplay, hvu, hv]
    rw [if_neg]
    exact Bool.false_ne_true

/-- Witness for C8 (amended): a truthy URL-free string field displays as a
warning link (never NoLink), and a falsy extraction displays nothing. -/
theorem claim8_witness :
    nonStreamingDisplay dataHello = .ok (.warnLink (pyof "hello"))
    ∧ nonStreamingDisplay (PyVal.int 3) = .ok .nothing := by
  constructor
  · have h := claim8_nonstreaming.2.1 dataHello (pyof "hello") rfl (by decide)
    exact h
  · exact claim8_nonstreaming.2.2 (PyVal.int 3) .none_ rfl rfl

/-- Counterexample to C8 as stated: with extracted field
`"video at https://x.com/v.mp4 here"`, the field contains the URL-pattern
substring `https://x.com/v.mp4` whose suffix is allow-listed, so the claim
predicts candidate `https://x.com/v.mp4` with RecognizedMedia; the code
instead suffix-checks the whole field and shows it as an unrecognized
warning link. -/
theorem claim8_counterexample :
    nonStreamingDisplay dataMixed = .ok (.warnLink (pyof "video at https://x.com/v.mp4 here"))
    ∧ extract_first_url (pyof "video at https://x.com/v.mp4 here") =
        some (pyof "https://x.com/v.mp4")
    ∧ suffixMatch (pyof "https://x.com/v.mp4") = true :=
  ⟨rfl, by decide, by decide⟩

/-! ## Claim C10: what `extract_first_url` returns -/

theorem scheme_ne (t₁ t₂ : List Char) :
    pyof "https://" ++ t₁ ≠ pyof "http://" ++ t₂ := by
  intro h
  rw [show pyof "https://" = ['h','t','t','p','s',':','/','/'] from rfl,
    show pyof "http://" = ['h','t','t','p',':','/','/'] from rfl] at h
  simp only [List.cons_append, List.cons.injEq] at h
  exact absurd h.2.2.2.2.1 (by decide)

theorem SchemeAt_nil (u : PyStr) : ¬ SchemeAt [] u := by
  rintro ⟨scheme, tail, hsch, hcs, -, -⟩
  rcases hsch with h | h <;> subst h <;>
    exact absurd (List.append_eq_nil.mp hcs.symm).1 (by decide)

theorem SchemeAt_unique {cs : List Char} {u v : PyStr}
    (hu : SchemeAt cs u) (hv : SchemeAt cs v) : u = v := by
  obtain ⟨s1, t1, hs1, hc1, hu1, -⟩ := hu
  obtain ⟨s2, t2, hs2, hc2, hv1, -⟩ := hv
  rw [hc1] at hc2
  rcases hs1 with h1 | h1 <;> rcases hs2 with h2 | h2 <;> subst h1 <;> subst h2
  · rw [hu1, hv1, List.append_cancel_left hc2]
  · exact absurd hc2.symm (scheme_ne t2 t1)
  · exact absurd hc2 (scheme_ne t1 t2)
  · rw [hu1, hv1, List.append_cancel_left hc2]

theorem matchUrlAt_some_iff (cs : List Char) (u : PyStr) :
    matchUrlAt cs = some u ↔ SchemeAt cs u := by
  unfold matchUrlAt
  by_cases h1 : (pyof "https://").isPrefixOf cs = true
  · rw [if_pos h1]
    obtain ⟨t, ht⟩ := List.isPrefixOf_iff_prefix.1 h1
    subst ht
    have hd : ((pyof "https://" ++ t).drop 8) = t := List.drop_left (pyof "https://") t
    rw [hd]
    by_cases hr : t.takeWhile (fun c => !pyIsSpace c) = []
    · rw [if_pos hr]
      constructor
      · intro h; exact absurd h (by simp)
      · rintro ⟨s2, t2, hs2, hc2, -, hne⟩
        exfalso
        rcases hs2 with h2 | h2 <;> subst h2
        · exact absurd hc2 (scheme_ne t t2)
        · exact hne (List.append_cancel_left hc2 ▸ hr)
    · rw [if_neg hr]
      constructor
      · intro h
        exact ⟨pyof "https://", t, Or.inr rfl, rfl, (Option.some.inj h).symm, hr⟩
      · intro hS
        have hW : SchemeAt (pyof "https://" ++ t)
            (pyof "https://" ++ t.takeWhile (fun c => !pyIsSpace c)) :=
          ⟨pyof "https://", t, Or.inr rfl, rfl, rfl, hr⟩
        rw [SchemeAt_unique hS hW]
  · rw [if_neg h1]
    by_cases h2 : (pyof "http://").isPrefixOf cs = true
    · rw [if_pos h2]
      obtain ⟨t, ht⟩ := List.isPrefixOf_iff_prefix.1 h2
      subst ht
      have hd : ((pyof "http://" ++ t).drop 7) = t := List.drop_left (pyof "http://") t
      rw [hd]
      by_cases hr : t.takeWhile (fun c => !pyIsSpace c) = []
      · rw [if_pos hr]
        constructor
        · intro h; exact absurd h (by simp)
        · rintro ⟨s2, t2, hs2, hc2, -, hne⟩
          exfalso
          rcases hs2 with h2' | h2' <;> subst h2'
          · exact hne (List.append_cancel_left hc2 ▸ hr)
          · exact absurd hc2.symm (scheme_ne t2 t)
      · rw [if_neg hr]
        constructor
        · intro h
          exact ⟨pyof "http://", t, Or.inl rfl, rfl, (Option.some.inj h).symm, hr⟩
        · intro hS
          have hW : SchemeAt (pyof "http://" ++ t)
              (pyof "http://" ++ t.takeWhile (fun c => !pyIsSpace c)) :=
            ⟨pyof "http://", t, Or.inl rfl, rfl, rfl, hr⟩
          rw [SchemeAt_unique hS hW]
    · rw [if_neg h2]
      constructor
      · intro h; exact absurd h (by simp)
      · rintro ⟨s2, t2, hs2, hc2, -, -⟩
        exfalso
        rcases hs2 with h' | h' <;> subst h'
        · exact h2 (List.isPrefixOf_iff_prefix.2 ⟨t2, hc2.symm⟩)
        · exact h1 (List.isPrefixOf_iff_prefix.2 ⟨t2, hc2.symm⟩)

theorem findUrl_some_iff :
    ∀ (cs : List Char) (u : PyStr),
      findUrl cs = some u ↔
        ∃ i, SchemeAt (cs.drop i) u ∧ ∀ j, j < i → ∀ v, ¬ SchemeAt (cs.drop j) v
  | [], u => by
    simp only [findUrl]
    constructor
    · intro h; exact absurd h (by simp)
    · rintro ⟨i, hi, -⟩
      exact absurd (List.drop_nil ▸ hi) (SchemeAt_nil u)
  | c :: rest, u => by
    cases hm : matchUrlAt (c :: rest) with
    | some u0 =>
      simp only [findUrl, hm]
      constructor
      · intro h
        have hu : u0 = u := Option.some.inj h
        subst hu
        refine ⟨0, by simpa using (matchUrlAt_some_iff _ _).1 hm, ?_⟩
        intro j hj v
        exact absurd hj (Nat.not_lt_zero j)
      · rintro ⟨i, hi, hmin⟩
        have h0 : SchemeAt (c :: rest) u0 := (matchUrlAt_some_iff _ _).1 hm
        cases i with
        | zero =>
          rw [List.drop_zero] at hi
          rw [SchemeAt_unique h0 hi]
        | succ n =>
          exact absurd h0 (by simpa using hmin 0 (Nat.succ_pos n) u0)
    | none =>
      simp only [findUrl, hm]
      rw [findUrl_some_iff rest u]
      constructor
      · rintro ⟨i, hi, hmin⟩
        refine ⟨i + 1, by simpa using hi, ?_⟩
        intro j hj v hS
        cases j with
        | zero =>
          rw [List.drop_zero] at hS
          exact absurd ((matchUrlAt_some_iff _ _).2 hS) (by simp [hm])
        | succ m =>
          rw [List.drop_succ_cons] at hS
          exact hmin m (by omega) v hS
      · rintro ⟨i, hi, hmin⟩
        cases i with
        | zero =>
          rw [List.drop_zero] at hi
          exact absurd ((matchUrlAt_some_iff _ _).2 hi) (by simp [hm])
        | succ n =>
          refine ⟨n, by simpa using hi, ?_⟩
          intro j hj v hS
          exact hmin (j + 1) (by omega) v (by simpa using hS)

/-- C10, amended.  `extract_first_url` returns the match of
`https?://[^\s]+` at the leftmost position where one succeeds: the
substring starting at the leftmost occurrence of `http://` or `https://`
that is followed by at least one non-whitespace character — even when that
occurrence lies in the middle of a larger whitespace-delimited token — and
extending through all immediately following non-whitespace characters (so
trailing punctuation is included in the candidate and can change its
suffix classification); it returns none when no position matches.  It is
not restricted to maximal non-whitespace runs that *begin* with the
scheme. -/
theorem claim10_first_url (text u : PyStr) :
    extract_first_url text = some u ↔
      ∃ i, SchemeAt (text.drop i) u ∧ ∀ j, j < i → ∀ v, ¬ SchemeAt (text.drop j) v :=
  findUrl_some_iff text u

/-- Counterexample to C10 as stated: in `xhttps://a.mp4` the only maximal
run of consecutive non-whitespace characters is the whole text, which does
not begin with `http://` or `https://`, so the claim predicts none; the
code returns the mid-token match `https://a.mp4`. -/
theorem claim10_counterexample :
    (∀ c ∈ pyof "xhttps://a.mp4", pyIsSpace c = false)
    ∧ (pyof "http://").isPrefixOf (pyof "xhttps://a.mp4") = false
    ∧ (pyof "https://").isPrefixOf (pyof "xhttps://a.mp4") = false
    ∧ extract_first_url (pyof "xhttps://a.mp4") = some (pyof "https://a.mp4")
    ∧ pyof "https://a.mp4" ≠ pyof "xhttps://a.mp4" :=
  ⟨by decide, by decide, by decide, by decide, by decide⟩
